import Mathlib

/-!
# Verification of the `georgecloney` molecular-cloning engine

A shallow embedding in Lean 4 of the restriction-digest / ligation engine:

* `packages/core/src/utils/sequence.ts`  — `reverseComplement`
* `packages/core/src/enzymes/finder.ts`  — `findRestrictionSites`,
  `findSitesForEnzyme`, `createSite`, `countEnzymeSites`
* `packages/core/src/enzymes/pairing.ts` — `suggestEnzymePairs`,
  `evaluateEnzymePair`, `hasCommonBuffer`
* `packages/core/src/analysis/digest.ts` — `simulateDigest`, `digestLinear`,
  `digestCircular`, `createFragmentEnd`, `complementFragmentEnd`,
  `extractFeatures`
* `packages/core/src/analysis/ligation.ts` — `predictLigationProducts`,
  `areEndsCompatible`, `calculateLigationProtocol`, plus the file-local
  `reverseComplement` of that module

Modelling conventions:

* TypeScript strings are `List Char`; `s.substring(a, b)` (which clamps to
  the string and swaps its arguments when `a > b`) is `jsSubstring`;
  `s.substring(a)` is `List.drop a`.
* JavaScript numbers are modelled as exact rationals (`ℚ`); integer indices
  and lengths as `ℕ`.  `parseFloat(x.toFixed(2))` is `round2`, which rounds
  to the nearest hundredth with ties toward `+∞`, matching the ECMAScript
  `toFixed` rule of picking the larger candidate integer.
* A JS object used as a map (`Record<string, T>`) is an association list
  `List (String × T)` so that `Object.entries` iteration order is kept;
  key lookup is `lookupEnzyme` / `lookupCount`.
* `crypto.randomUUID()` draws successive values from an ambient entropy
  stream.  Engine calls that allocate ids (`simulateDigest`,
  `predictLigationProducts`) therefore take an extra argument
  `ids : ℕ → String`, and the `k`-th record pushed during the call receives
  `ids k` (`attachIds` / `attachProductIds`).  Two executions of the same
  call correspond to two different streams.
-/

/-- DNA sequences (TypeScript strings) are lists of characters. -/
abbrev DNA := List Char

/-- `s.substring(a, b)` in JavaScript: clamps both indices to the string and
swaps them when `a > b`. -/
def jsSubstring (s : DNA) (a b : ℕ) : DNA :=
  if a ≤ b then (s.take b).drop a else (s.take a).drop b

/-- Complement of one base for `utils/sequence.ts` `reverseComplement`:
the IUPAC table is keyed by the upper-cased base and falls back to the
original character (`complement[base.toUpperCase()] || base`). -/
def complementBase (c : Char) : Char :=
  match c.toUpper with
  | 'A' => 'T' | 'T' => 'A' | 'G' => 'C' | 'C' => 'G'
  | 'N' => 'N' | 'R' => 'Y' | 'Y' => 'R' | 'M' => 'K'
  | 'K' => 'M' | 'S' => 'S' | 'W' => 'W' | 'H' => 'D'
  | 'B' => 'V' | 'V' => 'B' | 'D' => 'H'
  | _ => c

/-- `reverseComplement` from `packages/core/src/utils/sequence.ts`:
reverse the sequence and complement each base. -/
def reverseComplement (sequence : DNA) : DNA :=
  sequence.reverse.map complementBase

/-- Complement of one base for the `reverseComplement` defined locally in
`packages/core/src/analysis/ligation.ts`: only A/T/G/C/N are mapped, any
other character (including lower case) is kept unchanged. -/
def ligComplementBase (c : Char) : Char :=
  match c with
  | 'A' => 'T' | 'T' => 'A' | 'G' => 'C' | 'C' => 'G' | 'N' => 'N'
  | _ => c

/-- The file-local `reverseComplement` of `analysis/ligation.ts`. -/
def ligationReverseComplement (seq : DNA) : DNA :=
  seq.reverse.map ligComplementBase

/-- `topology` field of a sequence record. -/
inductive Topology
  | linear
  | circular
deriving DecidableEq, Repr

/-- `overhangType` of a restriction enzyme: `'blunt' | "5'" | "3'"`. -/
inductive OverhangType
  | blunt
  | five
  | three
deriving DecidableEq, Repr

/-- `RestrictionEnzyme` from `packages/core/src/types/enzyme.ts`.
`suppliers` and `isoschizomers` are omitted: no modelled operation reads
them.  `heatInactivation` is the optional temperature. -/
structure RestrictionEnzyme where
  name : String
  recognitionSeq : DNA
  cutPos5 : ℕ
  cutPos3 : ℕ
  overhangType : OverhangType
  overhangSeq : DNA
  buffers : List (List Char)
  methylationSensitive : Bool
  starActivity : Bool
  heatInactivation : Option ℚ
deriving DecidableEq, Repr

/-- `RestrictionSite` from `packages/core/src/types/enzyme.ts`. -/
structure RestrictionSite where
  enzyme : String
  position : ℕ
  strand : ℤ
  recognitionStart : ℕ
  recognitionEnd : ℕ
  overhangSeq : DNA
deriving DecidableEq, Repr

instance : Inhabited RestrictionSite := ⟨⟨"", 0, 1, 0, 0, []⟩⟩

/-- `Feature` from `packages/core/src/types/sequence.ts` (the fields the
digest engine copies and rebases). -/
structure Feature where
  start : ℕ
  «end» : ℕ
  strand : ℤ
  type : String
  qualifiers : List (String × String)
deriving DecidableEq, Repr

/-- `SequenceRecord` (the fields the engine reads): `sequence`, `length`,
`topology`, `features`. -/
structure SequenceRecord where
  sequence : DNA
  length : ℕ
  topology : Topology
  features : List Feature
deriving DecidableEq, Repr

/-- End type of a digest fragment: `'blunt' | "5'-overhang" | "3'-overhang"`. -/
inductive EndType
  | blunt
  | fiveOverhang
  | threeOverhang
deriving DecidableEq, Repr

/-- `FragmentEnd` from `packages/core/src/types/fragment.ts`; the two
optional fields default to `none` exactly like omitted TS object fields. -/
structure FragmentEnd where
  type : EndType
  overhangSeq : Option DNA := none
  enzyme : Option String := none
deriving DecidableEq, Repr

/-- `DigestFragment` from `packages/core/src/types/fragment.ts`. -/
structure DigestFragment where
  id : String
  sequence : DNA
  length : ℕ
  start : ℕ
  «end» : ℕ
  fivePrimeEnd : FragmentEnd
  threePrimeEnd : FragmentEnd
  features : List Feature
deriving DecidableEq, Repr

instance : Inhabited DigestFragment :=
  ⟨⟨"", [], 0, 0, 0, ⟨.blunt, none, none⟩, ⟨.blunt, none, none⟩, []⟩⟩

/-- The enzyme catalog `Record<string, RestrictionEnzyme>`, kept as an
association list so `Object.entries` order is preserved. -/
abbrev Catalog := List (String × RestrictionEnzyme)

/-- `enzymeDb[name]` — JS object key lookup, `undefined` becomes `none`. -/
def lookupEnzyme (db : Catalog) (name : String) : Option RestrictionEnzyme :=
  (db.find? (fun p => p.1 == name)).map Prod.snd

/-! ## Site finder (`packages/core/src/enzymes/finder.ts`) -/

/-- Does `pat` occur in `s` at index `i`?  (`s.indexOf(pat, ·)` hit.) -/
def matchesAt (s pat : DNA) (i : ℕ) : Bool :=
  decide ((s.drop i).take pat.length = pat)

/-- All indices at which `pat` occurs in `s`, in increasing order.  This is
the set of indices visited by the TS loop
`while ((pos = sequence.indexOf(pattern, pos)) !== -1) { ...; pos++ }`
(for the non-empty patterns of a real catalog; an empty pattern would make
that loop diverge, while here it matches everywhere). -/
def occurrences (s pat : DNA) : List ℕ :=
  (List.range (s.length + 1)).filter (matchesAt s pat)

/-- `createSite` from `finder.ts`: cut coordinate is
`recognitionStart + cutPos5` on the forward strand and
`recognitionStart + cutPos3` on the reverse strand. -/
def createSite (enzyme : RestrictionEnzyme) (recognitionStart : ℕ) (strand : ℤ) :
    RestrictionSite :=
  { enzyme := enzyme.name
    position := if strand = 1 then recognitionStart + enzyme.cutPos5
                else recognitionStart + enzyme.cutPos3
    strand := strand
    recognitionStart := recognitionStart
    recognitionEnd := recognitionStart + enzyme.recognitionSeq.length
    overhangSeq := enzyme.overhangSeq }

/-- `findSitesForEnzyme` from `finder.ts`: scan the forward strand for the
upper-cased recognition pattern, then — only when the pattern is not its own
reverse complement — scan for the reverse-complement pattern; matches whose
start lies at or beyond `originalLength` are dropped.  The `topology`
argument is taken but never read, exactly as in the source. -/
def findSitesForEnzyme (sequence : DNA) (enzyme : RestrictionEnzyme)
    (originalLength : ℕ) (topology : Topology) : List RestrictionSite :=
  let pattern := enzyme.recognitionSeq.map Char.toUpper
  let patternRev := reverseComplement pattern
  let fwd := ((occurrences sequence pattern).filter (fun pos => decide (pos < originalLength))).map
    (fun pos => createSite enzyme pos 1)
  let rev := if pattern ≠ patternRev then
      ((occurrences sequence patternRev).filter (fun pos => decide (pos < originalLength))).map
        (fun pos => createSite enzyme pos (-1))
    else []
  fwd ++ rev

/-- `findRestrictionSites` from `finder.ts`: for circular topology the search
buffer is extended by a prefix of length `max recognition length`; the
`Math.max` over an empty catalog (`-Infinity`, so an empty extension) is
modelled by folding with base `0`. -/
def findRestrictionSites (sequence : DNA) (enzymes : Catalog)
    (topology : Topology) : List (String × List RestrictionSite) :=
  let maxRecognitionLength := (enzymes.map (fun p => p.2.recognitionSeq.length)).foldr max 0
  let searchSeq := if topology = .circular then
      sequence ++ sequence.take maxRecognitionLength
    else sequence
  enzymes.map (fun p => (p.1, findSitesForEnzyme searchSeq p.2 sequence.length topology))

/-- `countEnzymeSites` from `finder.ts`. -/
def countEnzymeSites (sequence : DNA) (enzymes : Catalog)
    (topology : Topology) : List (String × ℕ) :=
  (findRestrictionSites sequence enzymes topology).map (fun p => (p.1, p.2.length))

/-- `counts[name] || 0` on a count map. -/
def lookupCount (counts : List (String × ℕ)) (name : String) : ℕ :=
  ((counts.find? (fun p => p.1 == name)).map Prod.snd).getD 0

/-! ## Digest engine (`packages/core/src/analysis/digest.ts`) -/

/-- `createFragmentEnd`: the `strand` argument is taken but never read, as in
the source. -/
def createFragmentEnd (enzyme : RestrictionEnzyme) (strand : ℤ)
    (complement : Bool) : FragmentEnd :=
  if enzyme.overhangType = .blunt then
    { type := .blunt, enzyme := some enzyme.name }
  else
    let type : EndType :=
      if enzyme.overhangType = .five then
        (if complement then .threeOverhang else .fiveOverhang)
      else
        (if complement then .fiveOverhang else .threeOverhang)
    let overhangSeq := if complement then reverseComplement enzyme.overhangSeq
                       else enzyme.overhangSeq
    { type := type, overhangSeq := some overhangSeq, enzyme := some enzyme.name }

/-- `complementFragmentEnd`: note `end.overhangSeq ? ... : undefined` treats
an empty overhang string as absent (JS falsiness). -/
def complementFragmentEnd (e : FragmentEnd) : FragmentEnd :=
  if e.type = .blunt then e
  else
    { type := if e.type = .fiveOverhang then .threeOverhang else .fiveOverhang
      overhangSeq := match e.overhangSeq with
        | some s => if s.isEmpty then none else some (reverseComplement s)
        | none => none
      enzyme := e.enzyme }

/-- `extractFeatures`: keep features fully inside `[start, end)`’s closed
variant `f.start ≥ start && f.end ≤ end`, rebased to the fragment origin. -/
def extractFeatures (features : List Feature) (start «end» : ℕ) : List Feature :=
  (features.filter (fun f => decide (start ≤ f.start ∧ f.«end» ≤ «end»))).map
    (fun f => { f with start := f.start - start, «end» := f.«end» - start })

/-- Attach the ambient UUID stream to pushed fragments: the `k`-th record
pushed by the call receives `ids k` (`id: crypto.randomUUID()`). -/
def attachIdsFrom (ids : ℕ → String) (k : ℕ) : List DigestFragment → List DigestFragment
  | [] => []
  | f :: fs => { f with id := ids k } :: attachIdsFrom ids (k + 1) fs

/-- All ids of one digest call, starting at stream position 0. -/
def attachIds (ids : ℕ → String) (frags : List DigestFragment) : List DigestFragment :=
  attachIdsFrom ids 0 frags

/-- The loop body and final push of `digestLinear`, with the running state
(`prevPos`, `prevEnd`) explicit.  A site whose enzyme is missing from the
catalog is skipped without touching the state (`if (!enzyme) continue`).
Ids are attached afterwards by `attachIds`. -/
def digestLinearGo (record : SequenceRecord) (db : Catalog) :
    List RestrictionSite → ℕ → FragmentEnd → List DigestFragment
  | [], prevPos, prevEnd =>
    let finalSeq := record.sequence.drop prevPos
    [{ id := ""
       sequence := finalSeq
       length := finalSeq.length
       start := prevPos
       «end» := record.length
       fivePrimeEnd := prevEnd
       threePrimeEnd := { type := .blunt }
       features := extractFeatures record.features prevPos record.length }]
  | site :: rest, prevPos, prevEnd =>
    match lookupEnzyme db site.enzyme with
    | none => digestLinearGo record db rest prevPos prevEnd
    | some enzyme =>
      let currentEnd := createFragmentEnd enzyme site.strand false
      let fragSeq := jsSubstring record.sequence prevPos site.position
      { id := ""
        sequence := fragSeq
        length := fragSeq.length
        start := prevPos
        «end» := site.position
        fivePrimeEnd := prevEnd
        threePrimeEnd := currentEnd
        features := extractFeatures record.features prevPos site.position } ::
      digestLinearGo record db rest site.position (complementFragmentEnd currentEnd)

/-- `digestLinear` from `digest.ts` (receives the already sorted sites). -/
def digestLinear (record : SequenceRecord) (sites : List RestrictionSite)
    (db : Catalog) : List DigestFragment :=
  digestLinearGo record db sites 0 { type := .blunt }

/-- `digestCircular` from `digest.ts`: one loop iteration.  The fragment for
index `i` runs from `sites[i]` to `sites[(i+1) % N]`; for the last index the
end is pushed past the origin (`sequence.length + nextSite.position`).  The
enzyme lookups happen after the slice is computed, and a missing enzyme
drops the whole fragment (`if (!currentEnzyme || !nextEnzyme) continue`). -/
def digestCircularStep (record : SequenceRecord) (sites : List RestrictionSite)
    (db : Catalog) (i : ℕ) : Option DigestFragment :=
  let currentSite := sites.getD i default
  let nextSite := sites.getD ((i + 1) % sites.length) default
  let start := currentSite.position
  let «end» := if i = sites.length - 1 then record.length + nextSite.position
               else nextSite.position
  let fragSeq := if record.length < «end» then
      record.sequence.drop start ++ jsSubstring record.sequence 0 («end» - record.length)
    else jsSubstring record.sequence start «end»
  match lookupEnzyme db currentSite.enzyme, lookupEnzyme db nextSite.enzyme with
  | some currentEnzyme, some nextEnzyme =>
    some { id := ""
           sequence := fragSeq
           length := fragSeq.length
           start := start
           «end» := «end» % record.length
           fivePrimeEnd := createFragmentEnd currentEnzyme currentSite.strand false
           threePrimeEnd := complementFragmentEnd (createFragmentEnd nextEnzyme nextSite.strand false)
           features := extractFeatures record.features start «end» }
  | _, _ => none

/-- `digestCircular` from `digest.ts` (receives the already sorted sites). -/
def digestCircular (record : SequenceRecord) (sites : List RestrictionSite)
    (db : Catalog) : List DigestFragment :=
  (List.range sites.length).filterMap (digestCircularStep record sites db)

/-- `[...sites].sort((a, b) => a.position - b.position)` — JavaScript's
`Array.prototype.sort` is stable, so this is the stable sort by cut
position (insertion sort, which is stable and structurally recursive). -/
def sortSites (sites : List RestrictionSite) : List RestrictionSite :=
  sites.insertionSort (fun a b => a.position ≤ b.position)

/-- `simulateDigest` from `digest.ts`.  `ids` is the ambient UUID stream
(see the module header): the `k`-th fragment pushed receives `ids k`. -/
def simulateDigest (record : SequenceRecord) (sites : List RestrictionSite)
    (enzymeDb : Catalog) (ids : ℕ → String) : List DigestFragment :=
  attachIds ids
    (if sites.length = 0 then
      [{ id := ""
         sequence := record.sequence
         length := record.length
         start := 0
         «end» := record.length
         fivePrimeEnd := { type := .blunt }
         threePrimeEnd := { type := .blunt }
         features := record.features }]
    else
      let sortedSites := sortSites sites
      if record.topology = .linear then digestLinear record sortedSites enzymeDb
      else digestCircular record sortedSites enzymeDb)

/-! ## Ligation predictor (`packages/core/src/analysis/ligation.ts`) -/

/-- `areEndsCompatible` from `ligation.ts`.  Both blunt → compatible; exactly
one blunt → incompatible; both sticky → compatible only for opposing
orientations with `end1.overhangSeq === reverseComplement(end2.overhangSeq || '')`
(an absent `end1.overhangSeq` can never equal the computed string, and an
absent `end2.overhangSeq` is read as the empty string; the reverse
complement here is the ligation-local one). -/
def areEndsCompatible (end1 end2 : FragmentEnd) : Bool :=
  if end1.type = .blunt ∧ end2.type = .blunt then true
  else if end1.type = .blunt ∨ end2.type = .blunt then false
  else if (end1.type = .fiveOverhang ∧ end2.type = .threeOverhang) ∨
          (end1.type = .threeOverhang ∧ end2.type = .fiveOverhang) then
    match end1.overhangSeq with
    | some s => decide (s = ligationReverseComplement (end2.overhangSeq.getD []))
    | none => false
  else false

/-- `type` field of a `LigationProduct`. -/
inductive ProductType
  | correct
  | reverse
  | selfLigation
  | concatemer
  | other
deriving DecidableEq, Repr

/-- `LigationProduct` from `packages/core/src/types/ligation.ts`. -/
structure LigationProduct where
  id : String
  type : ProductType
  sequence : DNA
  length : ℕ
  probability : ℚ
  fragmentIds : List String
  description : String
  isDesired : Bool
deriving DecidableEq, Repr

/-- UUID attachment for ligation products, in push order (see `attachIds`). -/
def attachProductIdsFrom (ids : ℕ → String) (k : ℕ) :
    List LigationProduct → List LigationProduct
  | [] => []
  | p :: ps => { p with id := ids k } :: attachProductIdsFrom ids (k + 1) ps

/-- `predictLigationProducts` from `ligation.ts`: the three products (correct
orientation, reverse orientation, vector self-ligation) are pushed under
independent compatibility conditions, with static probability weights
0.6 / 0.3 / 0.1.  `ids` is the ambient UUID stream. -/
def predictLigationProducts (vectorFragment insertFragment : DigestFragment)
    (ids : ℕ → String) : List LigationProduct :=
  let vector5Compatible := areEndsCompatible vectorFragment.fivePrimeEnd insertFragment.threePrimeEnd
  let vector3Compatible := areEndsCompatible vectorFragment.threePrimeEnd insertFragment.fivePrimeEnd
  let correctProducts :=
    if vector5Compatible && vector3Compatible then
      let correctSeq := vectorFragment.sequence ++ insertFragment.sequence
      [{ id := ""
         type := .correct
         sequence := correctSeq
         length := correctSeq.length
         probability := 6/10
         fragmentIds := [vectorFragment.id, insertFragment.id]
         description := "Insert in correct orientation"
         isDesired := true }]
    else []
  let insert5Compatible := areEndsCompatible vectorFragment.fivePrimeEnd insertFragment.fivePrimeEnd
  let insert3Compatible := areEndsCompatible vectorFragment.threePrimeEnd insertFragment.threePrimeEnd
  let reverseProducts :=
    if insert5Compatible && insert3Compatible then
      let reverseSeq := vectorFragment.sequence ++ ligationReverseComplement insertFragment.sequence
      [{ id := ""
         type := .reverse
         sequence := reverseSeq
         length := reverseSeq.length
         probability := 3/10
         fragmentIds := [vectorFragment.id, insertFragment.id]
         description := "Insert in reverse orientation"
         isDesired := false }]
    else []
  let selfProducts :=
    if areEndsCompatible vectorFragment.fivePrimeEnd vectorFragment.threePrimeEnd then
      [{ id := ""
         type := .selfLigation
         sequence := vectorFragment.sequence
         length := vectorFragment.sequence.length
         probability := 1/10
         fragmentIds := [vectorFragment.id]
         description := "Vector self-ligation (no insert)"
         isDesired := false }]
    else []
  attachProductIdsFrom ids 0 (correctProducts ++ reverseProducts ++ selfProducts)

/-- `LigationParameters` from `packages/core/src/types/ligation.ts`. -/
structure LigationParameters where
  vectorFragment : DigestFragment
  insertFragment : DigestFragment
  molarRatio : ℚ
  vectorConcentration : ℚ
  reactionVolume : ℚ
deriving Repr

/-- `LigationProtocol` from `packages/core/src/types/ligation.ts`. -/
structure LigationProtocol where
  vectorAmount : ℚ
  vectorVolume : ℚ
  insertAmount : ℚ
  insertVolume : ℚ
  ligaseVolume : ℚ
  bufferVolume : ℚ
  waterVolume : ℚ
  totalVolume : ℚ
  incubation : String
deriving Repr

/-- `parseFloat(x.toFixed(2))`: round to the nearest hundredth, ties toward
`+∞` (ECMAScript `toFixed` picks the larger candidate integer on a tie). -/
def round2 (q : ℚ) : ℚ :=
  (⌊q * 100 + 1/2⌋ : ℚ) / 100

/-- The water volume `calculateLigationProtocol` computes before rounding:
`reactionVolume - vectorVolume - insertVolume - ligaseVolume - bufferVolume`
with `vectorAmount = 50 ng`, ligase fixed at 1 µL and buffer at 10 % of the
reaction volume. -/
def rawWaterVolume (params : LigationParameters) : ℚ :=
  let vectorMW : ℚ := (params.vectorFragment.length : ℚ) * 650
  let insertMW : ℚ := (params.insertFragment.length : ℚ) * 650
  let vectorAmount : ℚ := 50
  let vectorPmol := vectorAmount / vectorMW * 1000
  let insertPmol := vectorPmol * params.molarRatio
  let insertAmount := insertPmol * insertMW / 1000
  let vectorVolume := vectorAmount / params.vectorConcentration
  let insertConcentration := params.vectorConcentration
  let insertVolume := insertAmount / insertConcentration
  let ligaseVolume : ℚ := 1
  let bufferVolume := params.reactionVolume * (1/10)
  params.reactionVolume - vectorVolume - insertVolume - ligaseVolume - bufferVolume

/-- `calculateLigationProtocol` from `ligation.ts`.  The function is total:
it always returns a protocol, never an error, and the water volume is
whatever remains (rounded), even when negative. -/
def calculateLigationProtocol (params : LigationParameters) : LigationProtocol :=
  let vectorMW : ℚ := (params.vectorFragment.length : ℚ) * 650
  let insertMW : ℚ := (params.insertFragment.length : ℚ) * 650
  let vectorAmount : ℚ := 50
  let vectorPmol := vectorAmount / vectorMW * 1000
  let insertPmol := vectorPmol * params.molarRatio
  let insertAmount := insertPmol * insertMW / 1000
  let vectorVolume := vectorAmount / params.vectorConcentration
  let insertConcentration := params.vectorConcentration
  let insertVolume := insertAmount / insertConcentration
  let ligaseVolume : ℚ := 1
  let bufferVolume := params.reactionVolume * (1/10)
  let waterVolume := params.reactionVolume - vectorVolume - insertVolume - ligaseVolume - bufferVolume
  { vectorAmount := vectorAmount
    vectorVolume := round2 vectorVolume
    insertAmount := round2 insertAmount
    insertVolume := round2 insertVolume
    ligaseVolume := ligaseVolume
    bufferVolume := round2 bufferVolume
    waterVolume := round2 waterVolume
    totalVolume := params.reactionVolume
    incubation := "Room temperature for 1 hour or 16°C overnight" }

/-! ## Pairing advisor (`packages/core/src/enzymes/pairing.ts`) -/

/-- `EnzymePair` from `pairing.ts`. -/
structure EnzymePair where
  enzyme1 : String
  enzyme2 : String
  score : ℚ
  reasons : List String
  warnings : List String
  bufferCompatible : Bool
deriving DecidableEq, Repr

/-- `hasCommonBuffer`: case-insensitive intersection test of two buffer
lists (buffer names, like all TS strings here, are `List Char`, and
`String.prototype.toLowerCase` is mapping `Char.toLower`). -/
def hasCommonBuffer (buffers1 buffers2 : List (List Char)) : Bool :=
  buffers2.any (fun b => (buffers1.map (List.map Char.toLower)).contains (b.map Char.toLower))

/-- JS truthiness of the optional numeric field `heatInactivation`:
`undefined` and `0` are falsy. -/
def jsTruthy (o : Option ℚ) : Bool :=
  match o with
  | none => false
  | some q => decide (q ≠ 0)

/-- `evaluateEnzymePair` from `pairing.ts`: the score starts at 0.5 and is
mutated branch by branch (note the `else` penalties −0.2 for identical
overhangs and −0.1 for incompatible buffers), then clamped to `[0, 1]`. -/
def evaluateEnzymePair (enzyme1 enzyme2 : RestrictionEnzyme) : EnzymePair :=
  let score0 : ℚ := 1/2
  let differentOverhangs := enzyme1.overhangSeq ≠ enzyme2.overhangSeq
  let score1 := if differentOverhangs then score0 + 2/10 else score0 - 2/10
  let bufferCompatible := hasCommonBuffer enzyme1.buffers enzyme2.buffers
  let score2 := if bufferCompatible then score1 + 15/100 else score1 - 1/10
  let score3 := if enzyme1.starActivity then score2 - 1/10 else score2
  let score4 := if enzyme2.starActivity then score3 - 1/10 else score3
  let score5 := if jsTruthy enzyme1.heatInactivation && jsTruthy enzyme2.heatInactivation then
      score4 + 1/10 else score4
  let score6 := if enzyme1.overhangType = .five ∧ enzyme2.overhangType = .five then
      score5 + 5/100 else score5
  let score := max 0 (min 1 score6)
  { enzyme1 := enzyme1.name
    enzyme2 := enzyme2.name
    score := score
    reasons :=
      (if differentOverhangs then ["Different overhangs prevent self-ligation"] else []) ++
      (if bufferCompatible then ["Enzymes work in the same buffer"] else []) ++
      (if jsTruthy enzyme1.heatInactivation && jsTruthy enzyme2.heatInactivation then
        ["Both enzymes can be heat inactivated"] else []) ++
      (if enzyme1.overhangType = .five ∧ enzyme2.overhangType = .five then
        ["Both create 5\x27 overhangs (efficient ligation)"] else [])
    warnings :=
      (if differentOverhangs then [] else ["Same overhangs may cause unwanted ligation products"]) ++
      (if bufferCompatible then [] else
        ["Enzymes require different buffers (sequential digestion needed)"]) ++
      (if enzyme1.starActivity then [enzyme1.name ++ " has star activity risk"] else []) ++
      (if enzyme2.starActivity then [enzyme2.name ++ " has star activity risk"] else []) ++
      (if enzyme1.methylationSensitive then
        [enzyme1.name ++ " is sensitive to Dam/Dcm methylation"] else []) ++
      (if enzyme2.methylationSensitive then
        [enzyme2.name ++ " is sensitive to Dam/Dcm methylation"] else [])
    bufferCompatible := bufferCompatible }

/-- All ordered pairs `(l[i], l[j])` with `i < j`, in the order of the
double loop of `suggestEnzymePairs`. -/
def orderedPairs : List String → List (String × String)
  | [] => []
  | x :: xs => xs.map (fun y => (x, y)) ++ orderedPairs xs

/-- Fallback enzyme for the (unreachable) failed lookup of a single-cutter
name that was just enumerated from the catalog. -/
def dfltEnzyme : RestrictionEnzyme :=
  ⟨"", [], 0, 0, .blunt, [], [], false, false, none⟩

/-- `suggestEnzymePairs` from `pairing.ts`: enzymes cutting exactly once in
both sequences are paired, each pair scored by `evaluateEnzymePair`, and the
list stably sorted by descending score. -/
def suggestEnzymePairs (vectorSeq insertSeq : DNA) (enzymes : Catalog)
    (vectorTopology : Topology) : List EnzymePair :=
  let vectorCounts := countEnzymeSites vectorSeq enzymes vectorTopology
  let insertCounts := countEnzymeSites insertSeq enzymes .linear
  let singleCutters := enzymes.filterMap (fun p =>
    if lookupCount vectorCounts p.1 = 1 ∧ lookupCount insertCounts p.1 = 1 then
      some p.1
    else none)
  let pairs := (orderedPairs singleCutters).map (fun q =>
    evaluateEnzymePair ((lookupEnzyme enzymes q.1).getD dfltEnzyme)
      ((lookupEnzyme enzymes q.2).getD dfltEnzyme))
  pairs.insertionSort (fun a b => b.score ≤ a.score)

/-! ## Helper lemmas -/

theorem jsSubstring_of_le (s : DNA) {a b : ℕ} (h : a ≤ b) :
    jsSubstring s a b = (s.take b).drop a := if_pos h

theorem jsSubstring_append_drop (s : DNA) {a b : ℕ} (h : a ≤ b) :
    jsSubstring s a b ++ s.drop b = s.drop a := by
  rw [jsSubstring_of_le s h, List.drop_take]
  have h2 : s.drop b = (s.drop a).drop (b - a) := by
    rw [List.drop_drop]
    congr 1
    omega
  rw [h2, List.take_append_drop]

theorem length_jsSubstring_of_le (s : DNA) {a b : ℕ} (h : a ≤ b) :
    (jsSubstring s a b).length = min b s.length - a := by
  simp [jsSubstring_of_le s h]

theorem attachIdsFrom_length (ids : ℕ → String) (k : ℕ) (l : List DigestFragment) :
    (attachIdsFrom ids k l).length = l.length := by
  induction l generalizing k with
  | nil => rfl
  | cons f fs ih => simp [attachIdsFrom, ih]

theorem attachIdsFrom_map {α : Type} (g : DigestFragment → α)
    (hg : ∀ f s, g { f with id := s } = g f) (ids : ℕ → String) (k : ℕ)
    (l : List DigestFragment) : (attachIdsFrom ids k l).map g = l.map g := by
  induction l generalizing k with
  | nil => rfl
  | cons f fs ih => simp [attachIdsFrom, hg, ih]

theorem attachIdsFrom_getD (ids : ℕ → String) (k : ℕ) (l : List DigestFragment)
    (d : DigestFragment) {i : ℕ} (h : i < l.length) :
    (attachIdsFrom ids k l).getD i d = { l.getD i d with id := ids (k + i) } := by
  induction l generalizing k i with
  | nil => simp at h
  | cons f fs ih =>
    cases i with
    | zero => simp [attachIdsFrom]
    | succ j =>
      simp only [attachIdsFrom, List.getD_cons_succ]
      have h' : j < fs.length := by
        simp only [List.length_cons] at h
        omega
      rw [ih (k + 1) h']
      have harith : k + 1 + j = k + (j + 1) := by omega
      rw [harith]

theorem attachIdsFrom_countP (p : DigestFragment → Bool)
    (hp : ∀ f s, p { f with id := s } = p f) (ids : ℕ → String) (k : ℕ)
    (l : List DigestFragment) : (attachIdsFrom ids k l).countP p = l.countP p := by
  induction l generalizing k with
  | nil => rfl
  | cons f fs ih => simp [attachIdsFrom, List.countP_cons, hp, ih]

theorem filterMap_eq_map_of_forall_some {α β : Type} {f : α → Option β} {g : α → β}
    {l : List α} (h : ∀ a ∈ l, f a = some (g a)) : l.filterMap f = l.map g := by
  induction l with
  | nil => rfl
  | cons a t ih =>
    rw [List.filterMap_cons, h a (List.mem_cons_self a t), List.map_cons,
      ih (fun x hx => h x (List.mem_cons_of_mem a hx))]

theorem map_getD_range {α : Type} (l : List α) (d : α) :
    (List.range l.length).map (fun i => l.getD i d) = l := by
  induction l with
  | nil => rfl
  | cons a t ih =>
    rw [List.length_cons, List.range_succ_eq_map, List.map_cons, List.map_map]
    have hmap : List.map ((fun i => (a :: t).getD i d) ∘ Nat.succ) (List.range t.length)
        = List.map (fun i => t.getD i d) (List.range t.length) :=
      List.map_congr_left (fun i _ => by simp [Function.comp])
    rw [hmap, ih]
    rfl

theorem chain_le_of_step (f : ℕ → ℕ) :
    ∀ m, (∀ i, i < m → f i ≤ f (i + 1)) → f 0 ≤ f m := by
  intro m
  induction m with
  | zero => intro _; exact Nat.le_refl _
  | succ n ih =>
    intro h
    exact Nat.le_trans (ih (fun i hi => h i (by omega))) (h n (by omega))

theorem sum_range_map_sub (f : ℕ → ℕ) :
    ∀ m, (∀ i, i < m → f i ≤ f (i + 1)) →
      ((List.range m).map (fun i => f (i + 1) - f i)).sum = f m - f 0 := by
  intro m
  induction m with
  | zero => intro _; simp
  | succ n ih =>
    intro h
    rw [List.range_succ, List.map_append, List.sum_append,
      ih (fun i hi => h i (by omega))]
    have h1 : f 0 ≤ f n := chain_le_of_step f n (fun i hi => h i (by omega))
    have h2 : f n ≤ f (n + 1) := h n (by omega)
    simp
    omega

instance : IsTotal RestrictionSite (fun a b => a.position ≤ b.position) :=
  ⟨fun _ _ => Nat.le_total _ _⟩

instance : IsTrans RestrictionSite (fun a b => a.position ≤ b.position) :=
  ⟨fun _ _ _ => Nat.le_trans⟩

theorem sortSites_sorted (sites : List RestrictionSite) :
    List.Sorted (fun a b : RestrictionSite => a.position ≤ b.position) (sortSites sites) :=
  List.sorted_insertionSort _ _

theorem sortSites_perm (sites : List RestrictionSite) :
    List.Perm (sortSites sites) sites :=
  List.perm_insertionSort _ _

theorem sortSites_length (sites : List RestrictionSite) :
    (sortSites sites).length = sites.length :=
  (sortSites_perm sites).length_eq

theorem mem_sortSites {sites : List RestrictionSite} {s : RestrictionSite}
    (h : s ∈ sortSites sites) : s ∈ sites :=
  (sortSites_perm sites).mem_iff.mp h

/-- Erase the randomly generated id of a fragment (used to compare two runs
of the same digest call). -/
def stripId (f : DigestFragment) : DigestFragment := { f with id := "" }

/-! ## Concrete fixtures (the test catalog of `packages/core/tests`) -/

/-- EcoRI as defined in the repository's enzyme data: `GAATTC`, cut after
base 1, 5′-overhang `AATT`. -/
def ecoRI : RestrictionEnzyme :=
  ⟨"EcoRI", "GAATTC".toList, 1, 5, .five, "AATT".toList,
    ["CutSmart".toList], false, true, some 65⟩

/-- A one-enzyme catalog. -/
def demoDb : Catalog := [("EcoRI", ecoRI)]

/-- A fixed ambient UUID stream (both runs of a comparison use the same
stream unless the claim is about the stream itself). -/
def uuidStream : ℕ → String := fun _ => ""

/-- A cut site at the given position for the named enzyme. -/
def mkSite (name : String) (pos : ℕ) : RestrictionSite := ⟨name, pos, 1, 0, 0, []⟩

/-- A 10 bp circular record. -/
def circRecord : SequenceRecord := ⟨"AAAAAAAAAA".toList, 10, .circular, []⟩

/-- A 16 bp linear record with EcoRI sites (`GAATTC` at 0 and 10). -/
def linRecord : SequenceRecord := ⟨"GAATTCATGCGAATTC".toList, 16, .linear, []⟩

/-! ## C10 — zero cut sites -/

/-- **C10.**  For every `SequenceRecord` of either topology, `simulateDigest`
with zero cut sites returns exactly one fragment: the whole sequence, with
`start = 0`, `end = sequence.length` and blunt placeholder ends on both
sides (its id being the first draw of the ambient UUID stream). -/
theorem simulateDigest_zero_sites (record : SequenceRecord) (db : Catalog)
    (ids : ℕ → String) :
    simulateDigest record [] db ids =
      [{ id := ids 0
         sequence := record.sequence
         length := record.length
         start := 0
         «end» := record.length
         fivePrimeEnd := { type := .blunt }
         threePrimeEnd := { type := .blunt }
         features := record.features }] := rfl

/-! ## C3 — end-compatibility rule -/

/-- **C3.**  `areEndsCompatible`: two blunt ends are compatible; a blunt end
against a sticky end never is; and for two sticky ends carrying overhang
sequences, compatibility holds exactly when the orientations oppose
(one 5′-overhang, one 3′-overhang) and `a`'s overhang equals the reverse
complement of `b`'s. -/
theorem areEndsCompatible_characterization :
    (∀ end1 end2 : FragmentEnd, end1.type = .blunt → end2.type = .blunt →
      areEndsCompatible end1 end2 = true)
    ∧ (∀ end1 end2 : FragmentEnd, (end1.type = .blunt ↔ end2.type ≠ .blunt) →
      areEndsCompatible end1 end2 = false)
    ∧ (∀ (end1 end2 : FragmentEnd) (sa sb : DNA), end1.type ≠ .blunt →
      end2.type ≠ .blunt → end1.overhangSeq = some sa → end2.overhangSeq = some sb →
      (areEndsCompatible end1 end2 = true ↔
        (((end1.type = .fiveOverhang ∧ end2.type = .threeOverhang) ∨
          (end1.type = .threeOverhang ∧ end2.type = .fiveOverhang)) ∧
          sa = ligationReverseComplement sb))) := by
  refine ⟨?_, ?_, ?_⟩
  · intro end1 end2 h1 h2
    simp [areEndsCompatible, h1, h2]
  · intro end1 end2 h
    rcases he1 : end1.type <;> rcases he2 : end2.type <;>
      simp_all [areEndsCompatible]
  · intro end1 end2 sa sb h1 h2 hs1 hs2
    rcases he1 : end1.type <;> rcases he2 : end2.type <;>
      simp_all [areEndsCompatible]

/-- Witness for C3: two EcoRI-style sticky ends with complementary `AATT`
overhangs are compatible. -/
theorem areEndsCompatible_characterization_witness :
    areEndsCompatible ⟨.fiveOverhang, some "AATT".toList, none⟩
      ⟨.threeOverhang, some "AATT".toList, none⟩ = true :=
  (areEndsCompatible_characterization.2.2
      ⟨.fiveOverhang, some "AATT".toList, none⟩
      ⟨.threeOverhang, some "AATT".toList, none⟩
      "AATT".toList "AATT".toList
      (by decide) (by decide) rfl rfl).mpr (by decide)

/-! ## C8 — determinism -/

/-- **C8 counterexample.**  The same `simulateDigest` call made against two
different ambient UUID streams (two executions) returns different outputs:
the fragment `id`s are random, not a function of the declared inputs. -/
theorem simulateDigest_depends_on_uuid_stream :
    simulateDigest linRecord [] demoDb (fun _ => "a") ≠
      simulateDigest linRecord [] demoDb (fun _ => "b") := by decide

/-- **C8 amended.**  `simulateDigest` is deterministic up to its randomly
generated fragment `id`s (erasing ids, any two executions agree), and
`findRestrictionSites` / `suggestEnzymePairs` are pure functions of their
inputs. -/
theorem engine_deterministic_up_to_ids :
    (∀ (record : SequenceRecord) (sites : List RestrictionSite) (db : Catalog)
      (ids1 ids2 : ℕ → String),
      (simulateDigest record sites db ids1).map stripId =
        (simulateDigest record sites db ids2).map stripId)
    ∧ (∀ (sequence : DNA) (enzymes : Catalog) (topology : Topology),
      findRestrictionSites sequence enzymes topology =
        findRestrictionSites sequence enzymes topology)
    ∧ (∀ (vectorSeq insertSeq : DNA) (enzymes : Catalog) (topology : Topology),
      suggestEnzymePairs vectorSeq insertSeq enzymes topology =
        suggestEnzymePairs vectorSeq insertSeq enzymes topology) := by
  refine ⟨?_, fun _ _ _ => rfl, fun _ _ _ _ => rfl⟩
  intro record sites db ids1 ids2
  have hstrip : ∀ (ids : ℕ → String) (k : ℕ) (l : List DigestFragment),
      (attachIdsFrom ids k l).map stripId = l.map stripId :=
    fun ids k l => attachIdsFrom_map stripId (fun _ _ => rfl) ids k l
  show (attachIds ids1 _).map stripId = (attachIds ids2 _).map stripId
  rw [attachIds, attachIds, hstrip, hstrip]

/-! ## C9 — unknown enzymes in cut sites -/

/-- **C9 counterexample.**  On a circular digest, a cut site referencing an
unknown enzyme is *not* merely skipped: both fragments adjacent to it are
dropped (`digestCircular` checks the lookups only after choosing the pair
of sites), so the result differs from the digest without that site and part
of the ring (here 6 of 10 bases) is lost. -/
theorem digestCircular_unknown_enzyme_loses_ring :
    simulateDigest circRecord [mkSite "EcoRI" 2, mkSite "Xxx" 5, mkSite "EcoRI" 8]
        demoDb uuidStream ≠
      simulateDigest circRecord [mkSite "EcoRI" 2, mkSite "EcoRI" 8] demoDb uuidStream
    ∧ ((simulateDigest circRecord [mkSite "EcoRI" 2, mkSite "Xxx" 5, mkSite "EcoRI" 8]
        demoDb uuidStream).map (fun f => f.length)).sum = 4
    ∧ circRecord.length = 10 := by
  refine ⟨by decide, by decide, rfl⟩

/-- **C9 amended.**  For linear digests the claim holds: a cut site whose
enzyme is not in the catalog is skipped without advancing the running cut
position or end, so the output of `digestLinear` is exactly the output for
the site list without that site (the two fragments around the skipped cut
are merged and nothing is lost).  (The circular case behaves differently;
see the counterexample.) -/
theorem digestLinear_skips_unknown_enzyme (record : SequenceRecord) (db : Catalog)
    (sites1 sites2 : List RestrictionSite) (bad : RestrictionSite)
    (h : lookupEnzyme db bad.enzyme = none) :
    digestLinear record (sites1 ++ bad :: sites2) db =
      digestLinear record (sites1 ++ sites2) db := by
  have go : ∀ (pre : List RestrictionSite) (prevPos : ℕ) (prevEnd : FragmentEnd),
      digestLinearGo record db (pre ++ bad :: sites2) prevPos prevEnd =
        digestLinearGo record db (pre ++ sites2) prevPos prevEnd := by
    intro pre
    induction pre with
    | nil =>
      intro prevPos prevEnd
      simp [digestLinearGo, h]
    | cons s rest ih =>
      intro prevPos prevEnd
      simp only [List.cons_append, digestLinearGo]
      cases hs : lookupEnzyme db s.enzyme <;> simp [hs, ih]
  exact go sites1 0 _

/-- Witness for C9 (amended): removing a concrete unknown-enzyme site from a
concrete linear digest leaves the fragments unchanged. -/
theorem digestLinear_skips_unknown_enzyme_witness :
    digestLinear linRecord ([mkSite "EcoRI" 1] ++ mkSite "Xxx" 5 :: [mkSite "EcoRI" 11])
        demoDb =
      digestLinear linRecord ([mkSite "EcoRI" 1] ++ [mkSite "EcoRI" 11]) demoDb :=
  digestLinear_skips_unknown_enzyme linRecord demoDb [mkSite "EcoRI" 1]
    [mkSite "EcoRI" 11] (mkSite "Xxx" 5) (by decide)

/-! ## C4 — ligation product scenario -/

/-- The 5′ side of an EcoRI cut as `digestLinear` labels an internal
fragment: the structural complement of the previous cut's 5′-overhang,
i.e. a 3′-overhang carrying `AATT`. -/
def ecoRIThreePrimeOfPrev : FragmentEnd :=
  ⟨.threeOverhang, some "AATT".toList, some "EcoRI"⟩

/-- The 3′ side of an EcoRI cut: a 5′-overhang carrying `AATT`. -/
def ecoRIFivePrime : FragmentEnd :=
  ⟨.fiveOverhang, some "AATT".toList, some "EcoRI"⟩

/-- A vector fragment with two EcoRI-compatible sticky ends. -/
def ecoVector : DigestFragment :=
  ⟨"vec", "CCCCCCCC".toList, 8, 0, 8, ecoRIThreePrimeOfPrev, ecoRIFivePrime, []⟩

/-- An insert fragment with matching EcoRI sticky ends. -/
def ecoInsert : DigestFragment :=
  ⟨"ins", "GGGG".toList, 4, 0, 4, ecoRIThreePrimeOfPrev, ecoRIFivePrime, []⟩

/-- A vector fragment with blunt ends on both sides. -/
def bluntVector : DigestFragment :=
  ⟨"vec", "CCCCCCCC".toList, 8, 0, 8, ⟨.blunt, none, none⟩, ⟨.blunt, none, none⟩, []⟩

/-- **C4 counterexample.**  A blunt-both-sides vector against a sticky
insert does *not* produce an empty product list: blunt ends are mutually
compatible, so the vector self-ligation product (weight 0.1) is emitted. -/
theorem predictLigationProducts_blunt_vector_not_empty :
    (predictLigationProducts bluntVector ecoInsert uuidStream).length = 1 ∧
    (predictLigationProducts bluntVector ecoInsert uuidStream).map
        (fun p => p.type) = [.selfLigation] := by
  refine ⟨by decide, by decide⟩

/-- **C4 amended.**  For the EcoRI-sticky vector/insert pair the claim
holds: `predictLigationProducts` emits exactly a "correct" product
(probability 0.6, vector + insert, desired) and a "self-ligation" product
(probability 0.1, vector alone) and no "reverse" product.  For the
blunt-both-sides vector against the sticky insert it emits exactly one
product — the vector self-ligation with probability 0.1 — rather than none. -/
theorem predictLigationProducts_scenarios :
    ((predictLigationProducts ecoVector ecoInsert uuidStream).map
        (fun p => (p.type, p.probability, p.isDesired)) =
      [(.correct, 6/10, true), (.selfLigation, 1/10, false)])
    ∧ ((predictLigationProducts ecoVector ecoInsert uuidStream).map
        (fun p => p.sequence) =
      [ecoVector.sequence ++ ecoInsert.sequence, ecoVector.sequence])
    ∧ ((predictLigationProducts bluntVector ecoInsert uuidStream).map
        (fun p => (p.type, p.probability)) = [(.selfLigation, 1/10)]) := by
  refine ⟨?_, ?_, ?_⟩ <;>
    simp [predictLigationProducts, attachProductIdsFrom, ecoVector, ecoInsert,
      bluntVector, ecoRIThreePrimeOfPrev, ecoRIFivePrime, uuidStream]

/-! ## C5 — ligation protocol arithmetic -/

/-- Ligation parameters with every field positive whose computed water
volume is negative (vector 1000 bp, insert 500 bp, 3:1 molar ratio,
100 ng/µL, 2 µL reaction). -/
def demoLigationParams : LigationParameters :=
  ⟨⟨"vec", [], 1000, 0, 0, ⟨.blunt, none, none⟩, ⟨.blunt, none, none⟩, []⟩,
   ⟨"ins", [], 500, 0, 0, ⟨.blunt, none, none⟩, ⟨.blunt, none, none⟩, []⟩,
   3, 100, 2⟩

/-- **C5 counterexample.**  `calculateLigationProtocol` never fails: at
all-positive parameters whose water volume comes out negative it still
returns a protocol, carrying the negative water volume (−0.45 µL here)
instead of surfacing an arithmetic error. -/
theorem calculateLigationProtocol_returns_negative_water :
    (calculateLigationProtocol demoLigationParams).waterVolume = -9/20
    ∧ (calculateLigationProtocol demoLigationParams).waterVolume < 0
    ∧ 0 < demoLigationParams.molarRatio
    ∧ 0 < demoLigationParams.vectorConcentration
    ∧ 0 < demoLigationParams.reactionVolume
    ∧ 0 < demoLigationParams.vectorFragment.length
    ∧ 0 < demoLigationParams.insertFragment.length := by
  refine ⟨?_, ?_, by norm_num [demoLigationParams], by norm_num [demoLigationParams],
    by norm_num [demoLigationParams], by norm_num [demoLigationParams],
    by norm_num [demoLigationParams]⟩ <;>
    norm_num [calculateLigationProtocol, round2, demoLigationParams]

/-- **C5 amended.**  When the computed water volume is negative,
`calculateLigationProtocol` does not fail and does not clamp: it returns
the protocol with exactly the (rounded) negative remainder as
`waterVolume`, which is never positive. -/
theorem calculateLigationProtocol_no_clamp (params : LigationParameters)
    (h : rawWaterVolume params < 0) :
    (calculateLigationProtocol params).waterVolume = round2 (rawWaterVolume params)
    ∧ (calculateLigationProtocol params).waterVolume ≤ 0 := by
  have heq : (calculateLigationProtocol params).waterVolume =
      round2 (rawWaterVolume params) := rfl
  refine ⟨heq, ?_⟩
  rw [heq, round2]
  have hlt : (⌊rawWaterVolume params * 100 + 1/2⌋ : ℤ) < 1 := by
    rw [Int.floor_lt]
    push_cast
    linarith
  have hle : ((⌊rawWaterVolume params * 100 + 1/2⌋ : ℤ) : ℚ) ≤ 0 := by
    exact_mod_cast Int.lt_add_one_iff.mp hlt
  linarith

/-- Witness for C5 (amended), at the concrete negative-water parameters. -/
theorem calculateLigationProtocol_no_clamp_witness :
    (calculateLigationProtocol demoLigationParams).waterVolume =
        round2 (rawWaterVolume demoLigationParams)
    ∧ (calculateLigationProtocol demoLigationParams).waterVolume ≤ 0 :=
  calculateLigationProtocol_no_clamp demoLigationParams
    (by norm_num [rawWaterVolume, demoLigationParams])

/-! ## C6 — pair scoring -/

/-- The pair score exactly as the claim states it (refinement reference,
following the spec's words): start at 0.5; +0.2 if the two overhang
sequences differ; +0.15 if the enzymes share a buffer (case-insensitive);
−0.1 per enzyme with star activity; +0.1 if both have a heat-inactivation
temperature; +0.05 if both produce 5′-overhangs; no other adjustment;
clamp to `[0, 1]`. -/
def specPairScoreClaimed (enzyme1 enzyme2 : RestrictionEnzyme) : ℚ :=
  max 0 (min 1 (1/2
    + (if enzyme1.overhangSeq ≠ enzyme2.overhangSeq then 2/10 else 0)
    + (if hasCommonBuffer enzyme1.buffers enzyme2.buffers then 15/100 else 0)
    - (if enzyme1.starActivity then 1/10 else 0)
    - (if enzyme2.starActivity then 1/10 else 0)
    + (if jsTruthy enzyme1.heatInactivation && jsTruthy enzyme2.heatInactivation then
        1/10 else 0)
    + (if enzyme1.overhangType = .five ∧ enzyme2.overhangType = .five then
        5/100 else 0)))

/-- The claim's score list amended by what the code actually does: identical
overhang sequences cost −0.2 and missing buffer compatibility costs −0.1
(the `else` branches of `evaluateEnzymePair`); all other adjustments are as
claimed. -/
def specPairScoreAmended (enzyme1 enzyme2 : RestrictionEnzyme) : ℚ :=
  max 0 (min 1 (1/2
    + (if enzyme1.overhangSeq ≠ enzyme2.overhangSeq then 2/10 else -(2/10))
    + (if hasCommonBuffer enzyme1.buffers enzyme2.buffers then 15/100 else -(1/10))
    - (if enzyme1.starActivity then 1/10 else 0)
    - (if enzyme2.starActivity then 1/10 else 0)
    + (if jsTruthy enzyme1.heatInactivation && jsTruthy enzyme2.heatInactivation then
        1/10 else 0)
    + (if enzyme1.overhangType = .five ∧ enzyme2.overhangType = .five then
        5/100 else 0)))

/-- A 5′-overhang single cutter with overhang `AATT` and no buffers in
common with anything. -/
def pairEnzymeSameOv1 : RestrictionEnzyme :=
  ⟨"Enz1", "GAATTC".toList, 1, 5, .five, "AATT".toList, ["BufOne".toList],
    false, false, none⟩

/-- A second 5′-overhang enzyme with the *same* overhang `AATT` and no
buffers at all. -/
def pairEnzymeSameOv2 : RestrictionEnzyme :=
  ⟨"Enz2", "CAATTG".toList, 1, 5, .five, "AATT".toList, [], false, false, none⟩

/-- **C6 counterexample.**  For a pair with identical overhang sequences and
no shared buffer the claimed adjustment list gives 0.55, but
`evaluateEnzymePair` (used by `suggestEnzymePairs`) also applies the `else`
penalties −0.2 (same overhangs) and −0.1 (no common buffer) and returns
0.25 — so the claimed list of adjustments is not exhaustive. -/
theorem evaluateEnzymePair_score_ne_claimed :
    (evaluateEnzymePair pairEnzymeSameOv1 pairEnzymeSameOv2).score ≠
        specPairScoreClaimed pairEnzymeSameOv1 pairEnzymeSameOv2
    ∧ (evaluateEnzymePair pairEnzymeSameOv1 pairEnzymeSameOv2).score = 1/4
    ∧ specPairScoreClaimed pairEnzymeSameOv1 pairEnzymeSameOv2 = 11/20 := by
  refine ⟨?_, ?_, ?_⟩ <;>
    norm_num [evaluateEnzymePair, specPairScoreClaimed, hasCommonBuffer,
      jsTruthy, pairEnzymeSameOv1, pairEnzymeSameOv2]

/-- **C6 amended.**  The score computed by `evaluateEnzymePair` equals the
claimed adjustment list extended with the two `else` penalties (−0.2 for
identical overhang sequences, −0.1 for no shared buffer), clamped to
`[0, 1]`; the heat bonus reads the field by JS truthiness (a present
non-zero temperature). -/
theorem evaluateEnzymePair_score_spec (enzyme1 enzyme2 : RestrictionEnzyme) :
    (evaluateEnzymePair enzyme1 enzyme2).score = specPairScoreAmended enzyme1 enzyme2
    ∧ 0 ≤ (evaluateEnzymePair enzyme1 enzyme2).score
    ∧ (evaluateEnzymePair enzyme1 enzyme2).score ≤ 1 := by
  refine ⟨?_, le_max_left _ _, max_le (by norm_num) (min_le_left _ _)⟩
  simp only [evaluateEnzymePair, specPairScoreAmended]
  split_ifs <;> norm_num

/-! ## C7 — palindromic recognition sequences -/

theorem mem_occurrences_lt_length {s pat : DNA} (hpat : pat ≠ []) :
    ∀ i ∈ occurrences s pat, i < s.length := by
  intro i hi
  rw [occurrences, List.mem_filter] at hi
  obtain ⟨_, hmatch⟩ := hi
  rw [matchesAt, decide_eq_true_eq] at hmatch
  have hlen := congrArg List.length hmatch
  simp only [List.length_take, List.length_drop] at hlen
  have hpos : 0 < pat.length := List.length_pos.mpr hpat
  omega

/-- **C7.**  For a palindromic recognition pattern (the upper-cased pattern
equals its own reverse complement) the reverse-strand scan of
`findSitesForEnzyme` is skipped entirely: over the whole sequence the finder
reports exactly the physical occurrences of the pattern, one forward-strand
site per occurrence, never two. -/
theorem findSitesForEnzyme_palindromic (s : DNA) (enzyme : RestrictionEnzyme)
    (topology : Topology)
    (hpal : reverseComplement (enzyme.recognitionSeq.map Char.toUpper) =
      enzyme.recognitionSeq.map Char.toUpper)
    (hne : enzyme.recognitionSeq ≠ []) :
    ((findSitesForEnzyme s enzyme s.length topology).map
        (fun site => site.recognitionStart) =
      occurrences s (enzyme.recognitionSeq.map Char.toUpper))
    ∧ ((findSitesForEnzyme s enzyme s.length topology).length =
      (occurrences s (enzyme.recognitionSeq.map Char.toUpper)).length)
    ∧ (∀ site ∈ findSitesForEnzyme s enzyme s.length topology, site.strand = 1) := by
  have hne' : enzyme.recognitionSeq.map Char.toUpper ≠ [] := by
    simpa using hne
  have hfilter : (occurrences s (enzyme.recognitionSeq.map Char.toUpper)).filter
      (fun pos => decide (pos < s.length)) =
      occurrences s (enzyme.recognitionSeq.map Char.toUpper) :=
    List.filter_eq_self.mpr (fun i hi => by
      simpa using mem_occurrences_lt_length hne' i hi)
  have hform : findSitesForEnzyme s enzyme s.length topology =
      (occurrences s (enzyme.recognitionSeq.map Char.toUpper)).map
        (fun pos => createSite enzyme pos 1) := by
    simp only [findSitesForEnzyme, hpal, ne_eq, not_true_eq_false, if_false,
      List.append_nil, hfilter]
  refine ⟨?_, ?_, ?_⟩
  · rw [hform, List.map_map]
    have hcomp : ((fun site : RestrictionSite => site.recognitionStart) ∘
        (fun pos => createSite enzyme pos 1)) = id := rfl
    rw [hcomp, List.map_id]
  · rw [hform, List.length_map]
  · intro site hsite
    rw [hform] at hsite
    obtain ⟨pos, _, hposeq⟩ := List.mem_map.mp hsite
    rw [← hposeq]
    rfl

/-- Witness for C7: EcoRI (`GAATTC`, palindromic) on `ATGCGAATTCGCTA`
reports exactly one site, at recognition start 4, on the forward strand. -/
theorem findSitesForEnzyme_palindromic_witness :
    ((findSitesForEnzyme "ATGCGAATTCGCTA".toList ecoRI
        ("ATGCGAATTCGCTA".toList).length .linear).map
        (fun site => site.recognitionStart) =
      occurrences "ATGCGAATTCGCTA".toList (ecoRI.recognitionSeq.map Char.toUpper))
    ∧ ((findSitesForEnzyme "ATGCGAATTCGCTA".toList ecoRI
        ("ATGCGAATTCGCTA".toList).length .linear).length =
      (occurrences "ATGCGAATTCGCTA".toList (ecoRI.recognitionSeq.map Char.toUpper)).length)
    ∧ (∀ site ∈ findSitesForEnzyme "ATGCGAATTCGCTA".toList ecoRI
        ("ATGCGAATTCGCTA".toList).length .linear, site.strand = 1) :=
  findSitesForEnzyme_palindromic "ATGCGAATTCGCTA".toList ecoRI .linear
    (by decide) (by decide)

/-! ## C1 — linear digest partitions the sequence -/

theorem digestLinearGo_length (record : SequenceRecord) (db : Catalog) :
    ∀ (sites : List RestrictionSite) (prevPos : ℕ) (prevEnd : FragmentEnd),
      (∀ s ∈ sites, (lookupEnzyme db s.enzyme).isSome) →
      (digestLinearGo record db sites prevPos prevEnd).length = sites.length + 1 := by
  intro sites
  induction sites with
  | nil => intro _ _ _; rfl
  | cons s rest ih =>
    intro prevPos prevEnd hfound
    obtain ⟨enzyme, henz⟩ := Option.isSome_iff_exists.mp
      (hfound s (List.mem_cons_self s rest))
    simp only [digestLinearGo, henz, List.length_cons]
    rw [ih _ _ (fun x hx => hfound x (List.mem_cons_of_mem s hx))]

theorem digestLinearGo_map_start (record : SequenceRecord) (db : Catalog) :
    ∀ (sites : List RestrictionSite) (prevPos : ℕ) (prevEnd : FragmentEnd),
      (∀ s ∈ sites, (lookupEnzyme db s.enzyme).isSome) →
      (digestLinearGo record db sites prevPos prevEnd).map (fun f => f.start) =
        prevPos :: sites.map (fun s => s.position) := by
  intro sites
  induction sites with
  | nil => intro _ _ _; rfl
  | cons s rest ih =>
    intro prevPos prevEnd hfound
    obtain ⟨enzyme, henz⟩ := Option.isSome_iff_exists.mp
      (hfound s (List.mem_cons_self s rest))
    simp only [digestLinearGo, henz, List.map_cons]
    rw [ih _ _ (fun x hx => hfound x (List.mem_cons_of_mem s hx))]

theorem digestLinearGo_flatten (record : SequenceRecord) (db : Catalog) :
    ∀ (sites : List RestrictionSite) (prevPos : ℕ) (prevEnd : FragmentEnd),
      (∀ s ∈ sites, (lookupEnzyme db s.enzyme).isSome) →
      List.Sorted (fun a b : RestrictionSite => a.position ≤ b.position) sites →
      (∀ s ∈ sites, prevPos ≤ s.position) →
      ((digestLinearGo record db sites prevPos prevEnd).map (fun f => f.sequence)).flatten =
        record.sequence.drop prevPos := by
  intro sites
  induction sites with
  | nil =>
    intro prevPos prevEnd _ _ _
    simp [digestLinearGo]
  | cons s rest ih =>
    intro prevPos prevEnd hfound hsorted hprev
    obtain ⟨enzyme, henz⟩ := Option.isSome_iff_exists.mp
      (hfound s (List.mem_cons_self s rest))
    rw [List.sorted_cons] at hsorted
    simp only [digestLinearGo, henz, List.map_cons, List.flatten_cons]
    rw [ih s.position (complementFragmentEnd (createFragmentEnd enzyme s.strand false))
      (fun x hx => hfound x (List.mem_cons_of_mem s hx)) hsorted.2 hsorted.1]
    exact jsSubstring_append_drop record.sequence (hprev s (List.mem_cons_self s rest))

theorem digestLinearGo_length_field (record : SequenceRecord) (db : Catalog) :
    ∀ (sites : List RestrictionSite) (prevPos : ℕ) (prevEnd : FragmentEnd),
      ∀ f ∈ digestLinearGo record db sites prevPos prevEnd,
        f.length = f.sequence.length := by
  intro sites
  induction sites with
  | nil =>
    intro prevPos prevEnd f hf
    simp only [digestLinearGo, List.mem_singleton] at hf
    rw [hf]
  | cons s rest ih =>
    intro prevPos prevEnd f hf
    rw [digestLinearGo] at hf
    cases henz : lookupEnzyme db s.enzyme with
    | none =>
      rw [henz] at hf
      exact ih _ _ f hf
    | some enzyme =>
      rw [henz] at hf
      rcases List.mem_cons.mp hf with heq | hmem
      · rw [heq]
      · exact ih _ _ f hmem

/-- **C1.**  A linear digest with at least one cut site, all of whose
enzymes are in the catalog and whose positions lie within the sequence,
returns exactly `N + 1` fragments, ordered by start position; the
concatenation of their `sequence` fields is the original sequence and their
`length` fields sum to `sequence.length`. -/
theorem simulateDigest_linear_partition (record : SequenceRecord)
    (sites : List RestrictionSite) (db : Catalog) (ids : ℕ → String)
    (htopo : record.topology = .linear)
    (hne : sites ≠ [])
    (hfound : ∀ s ∈ sites, (lookupEnzyme db s.enzyme).isSome)
    (hpos : ∀ s ∈ sites, s.position ≤ record.sequence.length) :
    (simulateDigest record sites db ids).length = sites.length + 1
    ∧ ((simulateDigest record sites db ids).map (fun f => f.sequence)).flatten =
        record.sequence
    ∧ List.Sorted (· ≤ ·) ((simulateDigest record sites db ids).map (fun f => f.start))
    ∧ ((simulateDigest record sites db ids).map (fun f => f.length)).sum =
        record.sequence.length := by
  have hlen0 : ¬ sites.length = 0 := by
    simpa [List.length_eq_zero] using hne
  have hdig : simulateDigest record sites db ids =
      attachIds ids (digestLinear record (sortSites sites) db) := by
    rw [simulateDigest, if_neg hlen0, htopo]
    rfl
  have hfound' : ∀ s ∈ sortSites sites, (lookupEnzyme db s.enzyme).isSome :=
    fun s hs => hfound s (mem_sortSites hs)
  set frags0 := digestLinearGo record db (sortSites sites) 0 { type := .blunt }
    with hfrags0
  have hcore : digestLinear record (sortSites sites) db = frags0 := rfl
  have hmapseq : (simulateDigest record sites db ids).map (fun f => f.sequence) =
      frags0.map (fun f => f.sequence) := by
    rw [hdig, hcore, attachIds]
    exact attachIdsFrom_map (fun f => f.sequence) (fun _ _ => rfl) ids 0 frags0
  have hmapstart : (simulateDigest record sites db ids).map (fun f => f.start) =
      frags0.map (fun f => f.start) := by
    rw [hdig, hcore, attachIds]
    exact attachIdsFrom_map (fun f => f.start) (fun _ _ => rfl) ids 0 frags0
  have hmaplen : (simulateDigest record sites db ids).map (fun f => f.length) =
      frags0.map (fun f => f.length) := by
    rw [hdig, hcore, attachIds]
    exact attachIdsFrom_map (fun f => f.length) (fun _ _ => rfl) ids 0 frags0
  have hflat : (frags0.map (fun f => f.sequence)).flatten = record.sequence := by
    rw [hfrags0]
    rw [digestLinearGo_flatten record db (sortSites sites) 0 _ hfound'
      (sortSites_sorted sites) (fun s _ => Nat.zero_le _)]
    exact List.drop_zero _
  refine ⟨?_, ?_, ?_, ?_⟩
  · rw [hdig, hcore, attachIds, attachIdsFrom_length, hfrags0,
      digestLinearGo_length record db _ _ _ hfound', sortSites_length]
  · rw [hmapseq, hflat]
  · rw [hmapstart, hfrags0,
      digestLinearGo_map_start record db _ _ _ hfound']
    rw [List.sorted_cons]
    constructor
    · intro b _
      exact Nat.zero_le b
    · rw [List.Sorted, List.pairwise_map]
      exact sortSites_sorted sites
  · have hcongr : frags0.map (fun f => f.length) =
        frags0.map (fun f => f.sequence.length) :=
      List.map_congr_left (fun f hf =>
        digestLinearGo_length_field record db (sortSites sites) 0 _ f hf)
    rw [hmaplen, hcongr]
    have hsum : (frags0.map (fun f => f.sequence.length)).sum =
        ((frags0.map (fun f => f.sequence)).map List.length).sum := by
      rw [List.map_map]
      rfl
    rw [hsum, ← List.length_flatten, hflat]

/-- Witness for C1: the Scenario-2 digest (`GAATTCATGCGAATTC`, EcoRI cuts at
1 and 11) gives 3 fragments whose sequences concatenate to the input and
whose lengths sum to 16. -/
theorem simulateDigest_linear_partition_witness :
    (simulateDigest linRecord [mkSite "EcoRI" 11, mkSite "EcoRI" 1] demoDb
        uuidStream).length = 3
    ∧ ((simulateDigest linRecord [mkSite "EcoRI" 11, mkSite "EcoRI" 1] demoDb
        uuidStream).map (fun f => f.sequence)).flatten = linRecord.sequence
    ∧ List.Sorted (· ≤ ·) ((simulateDigest linRecord
        [mkSite "EcoRI" 11, mkSite "EcoRI" 1] demoDb uuidStream).map (fun f => f.start))
    ∧ ((simulateDigest linRecord [mkSite "EcoRI" 11, mkSite "EcoRI" 1] demoDb
        uuidStream).map (fun f => f.length)).sum = linRecord.sequence.length :=
  simulateDigest_linear_partition linRecord [mkSite "EcoRI" 11, mkSite "EcoRI" 1]
    demoDb uuidStream rfl (by decide) (by decide) (by decide)

/-! ## C2 — circular digest partitions the ring -/

theorem getD_eq_getElem_of_lt {α : Type} (l : List α) (d : α) {i : ℕ}
    (h : i < l.length) : l.getD i d = l[i] := by
  rw [List.getD_eq_getElem?_getD, List.getElem?_eq_getElem h]
  rfl

theorem getD_map_range {α : Type} (g : ℕ → α) {n i : ℕ} (h : i < n) (d : α) :
    ((List.range n).map g).getD i d = g i := by
  have hlt : i < ((List.range n).map g).length := by
    simpa using h
  rw [getD_eq_getElem_of_lt _ _ hlt, List.getElem_map, List.getElem_range]

theorem map_getD_range_proj {α β : Type} (l : List α) (d : α) (h : α → β) :
    (List.range l.length).map (fun i => h (l.getD i d)) = l.map h := by
  have hcomp : (fun i => h (l.getD i d)) = h ∘ (fun i => l.getD i d) := rfl
  rw [hcomp, ← List.map_map, map_getD_range]

theorem getD_map_position (sites : List RestrictionSite) {j : ℕ}
    (hj : j < (sites.map (fun s => s.position)).length) :
    (sites.map (fun s => s.position)).getD j 0 = (sites.getD j default).position := by
  have hj' : j < sites.length := by simpa using hj
  rw [getD_eq_getElem_of_lt _ _ hj, getD_eq_getElem_of_lt _ _ hj', List.getElem_map]

/-- The fragment `digestCircularStep` pushes when both enzyme lookups
succeed (proof infrastructure; the `getD dfltEnzyme` fallbacks are
unreachable under the lookup hypotheses). -/
def circStepFrag (record : SequenceRecord) (sites : List RestrictionSite)
    (db : Catalog) (i : ℕ) : DigestFragment :=
  let currentSite := sites.getD i default
  let nextSite := sites.getD ((i + 1) % sites.length) default
  let start := currentSite.position
  let «end» := if i = sites.length - 1 then record.length + nextSite.position
               else nextSite.position
  let fragSeq := if record.length < «end» then
      record.sequence.drop start ++ jsSubstring record.sequence 0 («end» - record.length)
    else jsSubstring record.sequence start «end»
  { id := ""
    sequence := fragSeq
    length := fragSeq.length
    start := start
    «end» := «end» % record.length
    fivePrimeEnd := createFragmentEnd ((lookupEnzyme db currentSite.enzyme).getD dfltEnzyme)
      currentSite.strand false
    threePrimeEnd := complementFragmentEnd
      (createFragmentEnd ((lookupEnzyme db nextSite.enzyme).getD dfltEnzyme)
        nextSite.strand false)
    features := extractFeatures record.features start «end» }

theorem digestCircularStep_eq_some (record : SequenceRecord)
    (sites : List RestrictionSite) (db : Catalog) (i : ℕ)
    (h1 : (lookupEnzyme db (sites.getD i default).enzyme).isSome)
    (h2 : (lookupEnzyme db (sites.getD ((i + 1) % sites.length) default).enzyme).isSome) :
    digestCircularStep record sites db i = some (circStepFrag record sites db i) := by
  obtain ⟨ce, hce⟩ := Option.isSome_iff_exists.mp h1
  obtain ⟨ne, hne⟩ := Option.isSome_iff_exists.mp h2
  simp only [digestCircularStep, circStepFrag, hce, hne, Option.getD_some]

theorem digestCircular_eq_map (record : SequenceRecord)
    (sites : List RestrictionSite) (db : Catalog)
    (hfound : ∀ s ∈ sites, (lookupEnzyme db s.enzyme).isSome) :
    digestCircular record sites db =
      (List.range sites.length).map (circStepFrag record sites db) := by
  apply filterMap_eq_map_of_forall_some
  intro i hi
  rw [List.mem_range] at hi
  have hmem : ∀ {j : ℕ}, j < sites.length → sites.getD j default ∈ sites := by
    intro j hj
    rw [getD_eq_getElem_of_lt _ _ hj]
    exact List.getElem_mem _
  exact digestCircularStep_eq_some record sites db i
    (hfound _ (hmem hi))
    (hfound _ (hmem (Nat.mod_lt _ (by omega))))

/-- **C2.**  A circular digest with at least one cut site, all of whose
enzymes are in the catalog and whose positions are distinct and lie in
`[0, sequence.length)`, returns exactly `N` fragments partitioning the
ring: the fragment `length`s sum to `sequence.length`, the fragment starts
are exactly the sorted cut positions, each fragment's `end` is the
cyclically next cut position, and at most one fragment wraps past the
origin (`end ≤ start`). -/
theorem simulateDigest_circular_partition (record : SequenceRecord)
    (sites : List RestrictionSite) (db : Catalog) (ids : ℕ → String)
    (htopo : record.topology = .circular)
    (hne : sites ≠ [])
    (hlen : record.length = record.sequence.length)
    (hfound : ∀ s ∈ sites, (lookupEnzyme db s.enzyme).isSome)
    (hpos : ∀ s ∈ sites, s.position < record.length)
    (hnodup : (sites.map (fun s => s.position)).Nodup) :
    (simulateDigest record sites db ids).length = sites.length
    ∧ ((simulateDigest record sites db ids).map (fun f => f.length)).sum = record.length
    ∧ (simulateDigest record sites db ids).map (fun f => f.start) =
        (sortSites sites).map (fun s => s.position)
    ∧ (∀ i, i < sites.length →
        ((simulateDigest record sites db ids).getD i default).«end» =
          ((sortSites sites).map (fun s => s.position)).getD ((i + 1) % sites.length) 0)
    ∧ ((simulateDigest record sites db ids).filter
        (fun f => decide (f.«end» ≤ f.start))).length ≤ 1 := by
  set sorted := sortSites sites with hsorted_def
  have hsortlen : sorted.length = sites.length := sortSites_length sites
  have hfound' : ∀ s ∈ sorted, (lookupEnzyme db s.enzyme).isSome :=
    fun s hs => hfound s (mem_sortSites hs)
  have hpos' : ∀ s ∈ sorted, s.position < record.length :=
    fun s hs => hpos s (mem_sortSites hs)
  have hsorted' : List.Sorted (fun a b : RestrictionSite => a.position ≤ b.position)
      sorted := sortSites_sorted sites
  set ps := sorted.map (fun s => s.position) with hps_def
  have hpslen : ps.length = sites.length := by
    rw [hps_def, List.length_map, hsortlen]
  have hN0 : 0 < sites.length := List.length_pos.mpr hne
  have hnodup' : ps.Nodup :=
    (((sortSites_perm sites).map (fun s => s.position)).nodup_iff).mpr hnodup
  have hpairle : ps.Pairwise (· ≤ ·) := List.pairwise_map.mpr hsorted'
  have hpbound : ∀ {j}, j < sites.length → ps.getD j 0 < record.length := by
    intro j hj
    have hj' : j < ps.length := by rw [hpslen]; exact hj
    have hmemD : ps.getD j 0 ∈ ps := by
      rw [getD_eq_getElem_of_lt _ _ hj']
      exact List.getElem_mem _
    obtain ⟨s, hs, hval⟩ := List.mem_map.mp hmemD
    rw [← hval]
    exact hpos' s hs
  have hmono : ∀ {a b}, a < b → b < sites.length → ps.getD a 0 < ps.getD b 0 := by
    intro a b hab hb
    have ha' : a < ps.length := by rw [hpslen]; omega
    have hb' : b < ps.length := by rw [hpslen]; exact hb
    rw [getD_eq_getElem_of_lt _ _ ha', getD_eq_getElem_of_lt _ _ hb']
    have hle := List.pairwise_iff_getElem.mp hpairle a b ha' hb' hab
    have hne2 := List.pairwise_iff_getElem.mp hnodup' a b ha' hb' hab
    omega
  have hgetpos : ∀ {j}, j < sites.length →
      (sorted.getD j default).position = ps.getD j 0 := by
    intro j hj
    exact (getD_map_position sorted (by
      rw [List.length_map, hsortlen]; exact hj)).symm
  have hlen0 : ¬ sites.length = 0 := by omega
  have hdig : simulateDigest record sites db ids =
      attachIds ids (digestCircular record sorted db) := by
    rw [simulateDigest, if_neg hlen0, htopo]
    rfl
  have hcore : digestCircular record sorted db =
      (List.range sites.length).map (circStepFrag record sorted db) := by
    rw [digestCircular_eq_map record sorted db hfound', hsortlen]
  have hstart : ∀ {i}, i < sites.length →
      (circStepFrag record sorted db i).start = ps.getD i 0 := by
    intro i hi
    have hrfl : (circStepFrag record sorted db i).start =
        (sorted.getD i default).position := rfl
    rw [hrfl, hgetpos hi]
  have hend : ∀ {i}, i < sites.length →
      (circStepFrag record sorted db i).«end» = ps.getD ((i + 1) % sites.length) 0 := by
    intro i hi
    have hrfl : (circStepFrag record sorted db i).«end» =
        (if i = sorted.length - 1 then
          record.length + (sorted.getD ((i + 1) % sorted.length) default).position
         else (sorted.getD ((i + 1) % sorted.length) default).position) %
          record.length := rfl
    rw [hrfl, hsortlen]
    by_cases hlast : i = sites.length - 1
    · have hmod : (i + 1) % sites.length = 0 := by
        rw [hlast, Nat.sub_add_cancel hN0, Nat.mod_self]
      rw [if_pos hlast, hmod, hgetpos hN0, Nat.add_mod_left,
        Nat.mod_eq_of_lt (hpbound hN0)]
    · have hi1 : i + 1 < sites.length := by omega
      have hmod : (i + 1) % sites.length = i + 1 := Nat.mod_eq_of_lt hi1
      rw [if_neg hlast, hmod, hgetpos hi1, Nat.mod_eq_of_lt (hpbound hi1)]
  have hlength : ∀ {i}, i < sites.length →
      (circStepFrag record sorted db i).length =
        (if i = sites.length - 1 then record.length + ps.getD 0 0
         else ps.getD (i + 1) 0) - ps.getD i 0 := by
    intro i hi
    have hrfl : (circStepFrag record sorted db i).length =
        (if record.length <
            (if i = sorted.length - 1 then
              record.length + (sorted.getD ((i + 1) % sorted.length) default).position
             else (sorted.getD ((i + 1) % sorted.length) default).position) then
          record.sequence.drop (sorted.getD i default).position ++
            jsSubstring record.sequence 0
              ((if i = sorted.length - 1 then
                record.length + (sorted.getD ((i + 1) % sorted.length) default).position
               else (sorted.getD ((i + 1) % sorted.length) default).position) -
                record.length)
         else jsSubstring record.sequence (sorted.getD i default).position
          (if i = sorted.length - 1 then
            record.length + (sorted.getD ((i + 1) % sorted.length) default).position
           else (sorted.getD ((i + 1) % sorted.length) default).position)).length := rfl
    rw [hrfl, hsortlen]
    by_cases hlast : i = sites.length - 1
    · have hmod : (i + 1) % sites.length = 0 := by
        rw [hlast, Nat.sub_add_cancel hN0, Nat.mod_self]
      rw [if_pos hlast, if_pos hlast, hmod, hgetpos hN0, hgetpos hi]
      by_cases hwrap : record.length < record.length + ps.getD 0 0
      · rw [if_pos hwrap, List.length_append, List.length_drop,
          Nat.add_sub_cancel_left,
          length_jsSubstring_of_le record.sequence (Nat.zero_le _)]
        have h1 := hpbound hN0
        have h2 := hpbound hi
        omega
      · rw [if_neg hwrap,
          length_jsSubstring_of_le record.sequence
            (show ps.getD i 0 ≤ record.length + ps.getD 0 0 by
              have := hpbound hi
              omega)]
        have h2 := hpbound hi
        omega
    · have hi1 : i + 1 < sites.length := by omega
      have hmod : (i + 1) % sites.length = i + 1 := Nat.mod_eq_of_lt hi1
      rw [if_neg hlast, if_neg hlast, hmod, hgetpos hi1, hgetpos hi]
      have hnotlt : ¬ (record.length < ps.getD (i + 1) 0) := by
        have := hpbound hi1
        omega
      rw [if_neg hnotlt,
        length_jsSubstring_of_le record.sequence
          (le_of_lt (hmono (show i < i + 1 by omega) hi1))]
      have h1 := hpbound hi1
      have h2 := hmono (show i < i + 1 by omega) hi1
      omega
  refine ⟨?_, ?_, ?_, ?_, ?_⟩
  · rw [hdig, hcore, attachIds, attachIdsFrom_length, List.length_map,
      List.length_range]
  · have hmaplen : (simulateDigest record sites db ids).map (fun f => f.length) =
        ((List.range sites.length).map (circStepFrag record sorted db)).map
          (fun f => f.length) := by
      rw [hdig, hcore, attachIds]
      exact attachIdsFrom_map (fun f => f.length) (fun _ _ => rfl) ids 0 _
    rw [hmaplen, List.map_map]
    have hcongr : (List.range sites.length).map
        ((fun f => f.length) ∘ circStepFrag record sorted db) =
        (List.range sites.length).map (fun i =>
          (if i = sites.length - 1 then record.length + ps.getD 0 0
           else ps.getD (i + 1) 0) - ps.getD i 0) :=
      List.map_congr_left (fun i hi => hlength (List.mem_range.mp hi))
    rw [hcongr]
    have hsplit : List.range sites.length =
        List.range (sites.length - 1) ++ [sites.length - 1] := by
      conv_lhs => rw [show sites.length = (sites.length - 1) + 1 from by omega]
      rw [List.range_succ]
    rw [hsplit, List.map_append, List.sum_append]
    have hinit : (List.range (sites.length - 1)).map (fun i =>
        (if i = sites.length - 1 then record.length + ps.getD 0 0
         else ps.getD (i + 1) 0) - ps.getD i 0) =
        (List.range (sites.length - 1)).map (fun i =>
          ps.getD (i + 1) 0 - ps.getD i 0) :=
      List.map_congr_left (fun i hi => by
        rw [if_neg (by have := List.mem_range.mp hi; omega)])
    rw [hinit, sum_range_map_sub (fun j => ps.getD j 0) (sites.length - 1)
      (fun i hi => le_of_lt (hmono (show i < i + 1 by omega) (by omega)))]
    simp only [List.map_cons, List.map_nil, List.sum_cons, List.sum_nil, if_true]
    have hp0M : ps.getD 0 0 ≤ ps.getD (sites.length - 1) 0 := by
      rcases Nat.eq_zero_or_pos (sites.length - 1) with h | h
      · rw [h]
      · exact le_of_lt (hmono h (by omega))
    have hpMb := hpbound (show sites.length - 1 < sites.length by omega)
    omega
  · have hmapstart : (simulateDigest record sites db ids).map (fun f => f.start) =
        ((List.range sites.length).map (circStepFrag record sorted db)).map
          (fun f => f.start) := by
      rw [hdig, hcore, attachIds]
      exact attachIdsFrom_map (fun f => f.start) (fun _ _ => rfl) ids 0 _
    rw [hmapstart, List.map_map]
    have hcongr : (List.range sites.length).map
        ((fun f => f.start) ∘ circStepFrag record sorted db) =
        (List.range sites.length).map (fun i => ps.getD i 0) :=
      List.map_congr_left (fun i hi => hstart (List.mem_range.mp hi))
    rw [hcongr, ← hpslen, map_getD_range]
  · intro i hi
    have hlencore : ((List.range sites.length).map
        (circStepFrag record sorted db)).length = sites.length := by
      rw [List.length_map, List.length_range]
    have hgetfrag : (simulateDigest record sites db ids).getD i default =
        { ((List.range sites.length).map (circStepFrag record sorted db)).getD i
            default with id := ids i } := by
      rw [hdig, hcore, attachIds]
      rw [attachIdsFrom_getD ids 0 _ default (by rw [hlencore]; exact hi)]
      rw [Nat.zero_add]
    rw [hgetfrag]
    have hstep : ((List.range sites.length).map
        (circStepFrag record sorted db)).getD i default =
        circStepFrag record sorted db i := getD_map_range _ hi _
    show (((List.range sites.length).map (circStepFrag record sorted db)).getD i
        default).«end» = _
    rw [hstep, hend hi]
  · rw [← List.countP_eq_length_filter]
    have hcount : (simulateDigest record sites db ids).countP
        (fun f => decide (f.«end» ≤ f.start)) =
        ((List.range sites.length).map (circStepFrag record sorted db)).countP
          (fun f => decide (f.«end» ≤ f.start)) := by
      rw [hdig, hcore, attachIds]
      exact attachIdsFrom_countP (fun f => decide (f.«end» ≤ f.start))
        (fun _ _ => rfl) ids 0 _
    rw [hcount, List.countP_map]
    have hsplit : List.range sites.length =
        List.range (sites.length - 1) ++ [sites.length - 1] := by
      conv_lhs => rw [show sites.length = (sites.length - 1) + 1 from by omega]
      rw [List.range_succ]
    rw [hsplit, List.countP_append]
    have hzero : (List.range (sites.length - 1)).countP
        ((fun f => decide (f.«end» ≤ f.start)) ∘ circStepFrag record sorted db) = 0 := by
      rw [List.countP_eq_zero]
      intro i hi
      have hiM := List.mem_range.mp hi
      have hi' : i < sites.length := by omega
      have hi1 : i + 1 < sites.length := by omega
      simp only [Function.comp_apply, hend hi', hstart hi', decide_eq_true_eq]
      have hmod : (i + 1) % sites.length = i + 1 := Nat.mod_eq_of_lt hi1
      rw [hmod]
      have := hmono (show i < i + 1 by omega) hi1
      omega
    rw [hzero, Nat.zero_add]
    exact le_trans (List.countP_le_length _) (by simp)

/-- Witness for C2: a circular 10 bp record cut by EcoRI at 2 and 8 gives
two fragments whose lengths sum to 10. -/
theorem simulateDigest_circular_partition_witness :
    (simulateDigest circRecord [mkSite "EcoRI" 8, mkSite "EcoRI" 2] demoDb
        uuidStream).length = 2
    ∧ ((simulateDigest circRecord [mkSite "EcoRI" 8, mkSite "EcoRI" 2] demoDb
        uuidStream).map (fun f => f.length)).sum = circRecord.length
    ∧ (simulateDigest circRecord [mkSite "EcoRI" 8, mkSite "EcoRI" 2] demoDb
        uuidStream).map (fun f => f.start) =
        (sortSites [mkSite "EcoRI" 8, mkSite "EcoRI" 2]).map (fun s => s.position)
    ∧ (∀ i, i < ([mkSite "EcoRI" 8, mkSite "EcoRI" 2] : List RestrictionSite).length →
        ((simulateDigest circRecord [mkSite "EcoRI" 8, mkSite "EcoRI" 2] demoDb
          uuidStream).getD i default).«end» =
          ((sortSites [mkSite "EcoRI" 8, mkSite "EcoRI" 2]).map
            (fun s => s.position)).getD ((i + 1) %
              ([mkSite "EcoRI" 8, mkSite "EcoRI" 2] : List RestrictionSite).length) 0)
    ∧ ((simulateDigest circRecord [mkSite "EcoRI" 8, mkSite "EcoRI" 2] demoDb
        uuidStream).filter (fun f => decide (f.«end» ≤ f.start))).length ≤ 1 :=
  simulateDigest_circular_partition circRecord [mkSite "EcoRI" 8, mkSite "EcoRI" 2]
    demoDb uuidStream rfl (by decide) rfl (by decide) (by decide) (by decide)
